import Mathlib

/-!
WheelDirectionFlipper: a shallow embedding of `main.go`, `model.go`, `utils.go`.

The program walks the `HID` branch of the Windows registry, parses the
`DeviceDesc` value of every device instance, keeps the instances whose driver
token is the mouse driver, reads their `FlipFlopWheel` value and flips it.

Conventions of the embedding.

* A Go `string` is a sequence of bytes: `GoString := List (Fin 256)`.
  `strings.Index` yields a byte offset and slice expressions cut at byte
  offsets, exactly as the definitions below do.
* A Go function that may panic returns `Except Panic _`; a function that also
  writes to the registry returns the outcome together with the registry after
  the call (a panic does not undo or lose the registry).
* Go `int` is taken to be 64 bits wide (`toInt`), `uint32` is reduction
  modulo `2 ^ 32`.
* The registry package `golang.org/x/sys/windows/registry` is outside the
  repository. It is modelled by `Registry`, a finite map from key paths below
  `HKEY_LOCAL_MACHINE` to key nodes, with per-node switches for the failures
  the program distinguishes.
* Logging calls (`log.Println`, `DebugLogger.Printf`, ...) have no effect on
  results or on the registry and are left out; `Panicln` panics.
-/

namespace WheelDirectionFlipper

/-! ## Strings -/

/-- Go string: a sequence of bytes. -/
abbrev GoString := List (Fin 256)

/-- Byte sequence of a string literal of the source. All literals of the
program are ASCII, one byte per character. -/
def ascii (s : String) : GoString := s.data.map (fun c => Fin.ofNat c.toNat)

/-- Search loop of `strings.Index`: `i` is the offset of `s` in the whole string. -/
def indexFrom (substr : GoString) : GoString → Nat → Int
  | [], i => if substr = [] then (i : Int) else -1
  | c :: cs, i => if substr <+: c :: cs then (i : Int) else indexFrom substr cs (i + 1)

/-- Go `strings.Index(s, substr)`: byte offset of the first occurrence of
`substr` in `s`, or `-1` when there is none. -/
def Index (s substr : GoString) : Int := indexFrom substr s 0

/-- Go `strings.Join(elems, sep)`. -/
def Join : List GoString → GoString → GoString
  | [], _ => []
  | [s], _ => s
  | s :: t :: rest, sep => s ++ sep ++ Join (t :: rest) sep

/-- Function `joinPath` of utils.go: `strings.Join(segments, "\\")`. -/
def joinPath (segments : List GoString) : GoString := Join segments (ascii "\\")

/-- Function `contains` of utils.go: linear scan for an equal element. -/
def contains : List GoString → GoString → Bool
  | [], _ => false
  | a :: rest, value => if a = value then true else contains rest value

/-! ## Panics -/

deriving instance DecidableEq for Except

/-- The ways the program panics. -/
inductive Panic where
  /-- The helper `panicOnError` was handed a non-nil error; the argument is its message. -/
  | onError (msg : GoString)
  /-- Runtime error of a slice expression: slice bounds out of range. -/
  | sliceBounds
  /-- The call `ErrorLogger.Panicln("Unknown current direction", instance)` in
  `toggleWheel` (the spec's InvalidStateError). The variable `ErrorLogger` is
  declared outside the given sources; its `Panicln` is taken to be the one of
  `log.Logger`, which logs and then panics. -/
  | unknownDirection
  deriving DecidableEq, Repr

/-- Go slice expression `s[lo:hi]` on a string: panics unless
`0 ≤ lo ≤ hi ≤ len(s)`. -/
def slice (s : GoString) (lo hi : Int) : Except Panic GoString :=
  if 0 ≤ lo ∧ lo ≤ hi ∧ hi ≤ (s.length : Int) then
    .ok ((s.take hi.toNat).drop lo.toNat)
  else
    .error Panic.sliceBounds

/-- Modelled from the spec: the helper `panicOnError(err, msg)` is called in main.go
but defined in a file that is not among the sources. By its name and its use
after every registry call it panics when `err` is non-nil and otherwise
returns. Here it turns the error of a registry call into a panic carrying
`msg` and passes a successful result through. -/
def panicOnError {ε α : Type} (r : Except ε α) (msg : GoString) : Except Panic α :=
  match r with
  | .ok a => .ok a
  | .error _ => .error (Panic.onError msg)

/-! ## Data model (model.go) -/

structure Device where
  id : GoString
  deriving DecidableEq, Repr

structure deviceDesc where
  driver : GoString
  deviceType : GoString
  name : GoString
  deriving DecidableEq, Repr

structure DeviceInstance where
  id : GoString
  parent : Device
  desc : deviceDesc
  deriving DecidableEq, Repr

def WHEEL_UNKNOWN : Int := -1
def WHEEL_NORMAL : Int := 0
def WHEEL_FLIPPED : Int := 1

/-! ## Descriptor parsing -/

/-- Function `parseDeviceDesc` of main.go. The three slice expressions are
evaluated in the order of the source: `desc[:commaIndex]`,
`desc[colonIdex+1:]`, `desc[commaIndex+1 : colonIdex]`. -/
def parseDeviceDesc (desc : GoString) : Except Panic deviceDesc :=
  let commaIndex := Index desc (ascii ",")
  let colonIdex := Index desc (ascii ";")
  match slice desc 0 commaIndex with
  | .error p => .error p
  | .ok driver =>
    match slice desc (colonIdex + 1) desc.length with
    | .error p => .error p
    | .ok name =>
      match slice desc (commaIndex + 1) colonIdex with
      | .error p => .error p
      | .ok deviceType => .ok { driver := driver, deviceType := deviceType, name := name }

/-- Method `deviceDesc.isMouse` of main.go. -/
def deviceDesc.isMouse (d : deviceDesc) : Bool :=
  decide (d.driver = ascii "@msmouse.inf")


/-! ## The registry (external package, modelled) -/

/-- Data of a registry value, by value type. -/
inductive RegValue where
  /-- Types `REG_SZ` and `REG_EXPAND_SZ`. -/
  | sz (s : GoString)
  /-- Type `REG_DWORD`. -/
  | dword (n : Nat)
  /-- Type `REG_QWORD`. -/
  | qword (n : Nat)
  /-- Any other value type. -/
  | binary
  deriving DecidableEq, Repr

/-- Errors of the registry package. -/
inductive RegError where
  | notExist
  | accessDenied
  | unexpectedType
  | eof
  | ioFailure
  deriving DecidableEq, Repr

/-- Access mask passed to `registry.OpenKey`. -/
inductive Access where
  | READ
  | WRITE
  deriving DecidableEq, Repr

/-- First entry stored under `name` in an association list. -/
def lookup {β : Type} : List (GoString × β) → GoString → Option β
  | [], _ => none
  | (k, v) :: rest, name => if k = name then some v else lookup rest name

/-- Replace the entry stored under `name`, or append one when there is none. -/
def insert {β : Type} : List (GoString × β) → GoString → β → List (GoString × β)
  | [], name, v => [(name, v)]
  | (k, w) :: rest, name, v => if k = name then (k, v) :: rest else (k, w) :: insert rest name v

/-- One key node of the registry: the names of its subkeys in enumeration
order, its named values in enumeration order, and whether each kind of access
to it succeeds. -/
structure RegKey where
  subKeys : List GoString
  values : List (GoString × RegValue)
  /-- Opening the key with `registry.READ` succeeds. -/
  readable : Bool
  /-- Opening the key with `registry.WRITE` succeeds. -/
  writable : Bool
  /-- The call `Stat` on the open key succeeds. -/
  statOk : Bool
  /-- The calls `ReadSubKeyNames` and `ReadValueNames` on the open key succeed. -/
  enumOk : Bool
  /-- The call `SetDWordValue` on the open key succeeds. -/
  setOk : Bool
  deriving DecidableEq, Repr

/-- The registry below `HKEY_LOCAL_MACHINE`: key path to key node. -/
abbrev Registry := List (GoString × RegKey)

/-- An open key handle: the path it was opened at and the node found there. -/
structure Key where
  path : GoString
  node : RegKey
  deriving DecidableEq, Repr

/-- Result of `Key.Stat` (the two fields the program reads). -/
structure KeyInfo where
  SubKeyCount : Nat
  ValueCount : Nat
  deriving DecidableEq, Repr

/-- The call `registry.OpenKey(registry.LOCAL_MACHINE, path, access)`. -/
def OpenKey (reg : Registry) (path : GoString) (access : Access) : Except RegError Key :=
  match lookup reg path with
  | none => .error RegError.notExist
  | some node =>
    match access with
    | Access.READ =>
      if node.readable then .ok { path := path, node := node } else .error RegError.accessDenied
    | Access.WRITE =>
      if node.writable then .ok { path := path, node := node } else .error RegError.accessDenied

def Key.Stat (k : Key) : Except RegError KeyInfo :=
  if k.node.statOk then
    .ok { SubKeyCount := k.node.subKeys.length, ValueCount := k.node.values.length }
  else .error RegError.ioFailure

/-- The call `ReadSubKeyNames(n)`: all names when `n ≤ 0`, otherwise the first `n`,
with `io.EOF` when there are fewer than `n`. -/
def Key.ReadSubKeyNames (k : Key) (n : Nat) : Except RegError (List GoString) :=
  if k.node.enumOk = false then .error RegError.ioFailure
  else if n = 0 then .ok k.node.subKeys
  else if k.node.subKeys.length < n then .error RegError.eof
  else .ok (k.node.subKeys.take n)

/-- The call `ReadValueNames(n)`, returning names and error side by side because
`getWheelDirection` uses the names without looking at the error. -/
def Key.ReadValueNames (k : Key) (n : Nat) : List GoString × Option RegError :=
  let names := k.node.values.map Prod.fst
  if k.node.enumOk = false then ([], some RegError.ioFailure)
  else if n = 0 then (names, none)
  else if names.length < n then (names, some RegError.eof)
  else (names.take n, none)

/-- The call `GetStringValue(name)`, value and error side by side (the value
is the empty string whenever the error is set). -/
def Key.GetStringValue (k : Key) (name : GoString) : GoString × Option RegError :=
  match lookup k.node.values name with
  | none => ([], some RegError.notExist)
  | some (RegValue.sz s) => (s, none)
  | some _ => ([], some RegError.unexpectedType)

/-- The call `GetIntegerValue(name)`: a `uint64` read from a `REG_DWORD` or
`REG_QWORD` value. -/
def Key.GetIntegerValue (k : Key) (name : GoString) : Except RegError Nat :=
  match lookup k.node.values name with
  | none => .error RegError.notExist
  | some (RegValue.dword n) => .ok (n % 2 ^ 32)
  | some (RegValue.qword n) => .ok (n % 2 ^ 64)
  | some _ => .error RegError.unexpectedType

/-- The call `SetDWordValue(name, value)` on a key handle: the registry after the call. -/
def Key.SetDWordValue (reg : Registry) (k : Key) (name : GoString) (value : Nat) :
    Except RegError Registry :=
  if k.node.setOk then
    .ok (insert reg k.path { k.node with values := insert k.node.values name (RegValue.dword value) })
  else .error RegError.ioFailure

/-! ## Machine integers -/

/-- Conversion `int(x)` of a `uint64` on a platform with 64-bit `int`. -/
def toInt (u : Nat) : Int :=
  if u % 2 ^ 64 < 2 ^ 63 then ((u % 2 ^ 64 : Nat) : Int) else ((u % 2 ^ 64 : Nat) : Int) - 2 ^ 64

/-- Conversion `uint32(x)` of an `int`. -/
def toUint32 (i : Int) : Nat := (i % 2 ^ 32).toNat

/-! ## Enumeration (main.go) -/

def rootHidPath : GoString := ascii "SYSTEM\\CurrentControlSet\\Enum\\HID"

def KeyNameFlipFlopWheel : GoString := ascii "FlipFlopWheel"

/-- Function `listSubKeysNames` of main.go. -/
def listSubKeysNames (key : Key) : Except Panic (List GoString) :=
  match panicOnError key.Stat (ascii "Getting stat of key") with
  | .error p => .error p
  | .ok stat => panicOnError (key.ReadSubKeyNames stat.SubKeyCount) (ascii "ReadSubKeyNames")

/-- Body of the `for ... range hidSubKeys` loop of `listInstances`; `result` is
the slice built so far. -/
def listInstancesLoop (reg : Registry) (d : Device) (hidPath : GoString) :
    List GoString → List DeviceInstance → Except Panic (List DeviceInstance)
  | [], result => .ok result
  | hidSubKey :: rest, result =>
    let subDevicePath := joinPath [hidPath, hidSubKey]
    match panicOnError (OpenKey reg subDevicePath Access.READ) (ascii "Nya") with
    | .error p => .error p
    | .ok subDeviceKey =>
      let desc := (subDeviceKey.GetStringValue (ascii "DeviceDesc")).1
      match parseDeviceDesc desc with
      | .error p => .error p
      | .ok parsed =>
        listInstancesLoop reg d hidPath rest
          (result ++ [{ parent := d, id := hidSubKey, desc := parsed }])

/-- Method `Device.listInstances` of main.go. -/
def Device.listInstances (reg : Registry) (d : Device) : Except Panic (List DeviceInstance) :=
  let hidPath := joinPath [rootHidPath, d.id]
  match panicOnError (OpenKey reg hidPath Access.READ)
      (ascii "HID " ++ hidPath ++ ascii " subkey") with
  | .error p => .error p
  | .ok hidKey =>
    match listSubKeysNames hidKey with
    | .error p => .error p
    | .ok hidSubKeys => listInstancesLoop reg d hidPath hidSubKeys []

/-- Function `listRootDevices` of main.go. -/
def listRootDevices (reg : Registry) : Except Panic (List Device) :=
  match panicOnError (OpenKey reg rootHidPath Access.READ) (ascii "Open HID key") with
  | .error p => .error p
  | .ok key =>
    match listSubKeysNames key with
    | .error p => .error p
    | .ok rootNames => .ok (rootNames.map (fun hidName => { id := hidName }))

/-- Inner loop of `loadDeviceInstances`: append the mice among `instances` to `mice`. -/
def appendMice : List DeviceInstance → List DeviceInstance → List DeviceInstance
  | [], mice => mice
  | inst :: rest, mice =>
    if inst.desc.isMouse then appendMice rest (mice ++ [inst]) else appendMice rest mice

/-- Outer loop of `loadDeviceInstances`; `mice` is the slice built so far. -/
def loadDeviceInstancesLoop (reg : Registry) :
    List Device → List DeviceInstance → Except Panic (List DeviceInstance)
  | [], mice => .ok mice
  | device :: rest, mice =>
    match device.listInstances reg with
    | .error p => .error p
    | .ok instances => loadDeviceInstancesLoop reg rest (appendMice instances mice)

/-- Function `loadDeviceInstances` of main.go. -/
def loadDeviceInstances (reg : Registry) (devices : List Device) :
    Except Panic (List DeviceInstance) :=
  loadDeviceInstancesLoop reg devices []

/-- The first two statements of `main`: `loadDeviceInstances(listRootDevices())`. -/
def loadConfigurable (reg : Registry) : Except Panic (List DeviceInstance) :=
  match listRootDevices reg with
  | .error p => .error p
  | .ok rootDevices => loadDeviceInstances reg rootDevices

/-! ## Wheel direction (main.go) -/

/-- Method `DeviceInstance.GetDevicePath`: the format `%s\%s` applied to the two ids. -/
def DeviceInstance.GetDevicePath (d : DeviceInstance) : GoString :=
  d.parent.id ++ ascii "\\" ++ d.id

/-- Method `DeviceInstance.getDeviceParamsPath` of main.go. -/
def DeviceInstance.getDeviceParamsPath (d : DeviceInstance) : GoString :=
  joinPath [rootHidPath, d.parent.id, d.id, ascii "Device Parameters"]

/-- Statements of `getWheelDirection` after the `defer`, up to the first panic. -/
def getWheelDirectionBody (reg : Registry) (d : DeviceInstance) : Except Panic Int :=
  let parametersPath := joinPath [rootHidPath, d.parent.id, d.id, ascii "Device Parameters"]
  match panicOnError (OpenKey reg parametersPath Access.READ) (ascii "Open Device parameters") with
  | .error p => .error p
  | .ok key =>
    match panicOnError key.Stat (ascii "Device Parameters stat") with
    | .error p => .error p
    | .ok stat =>
      let valueCount := stat.ValueCount
      if valueCount = 0 then .ok WHEEL_UNKNOWN
      else
        let valueNames := (key.ReadValueNames valueCount).1
        if contains valueNames KeyNameFlipFlopWheel = false then .ok WHEEL_UNKNOWN
        else
          match panicOnError (key.GetIntegerValue KeyNameFlipFlopWheel)
              (ascii "FlipFlopWheel value read") with
          | .error p => .error p
          | .ok wheelFlipFlag => .ok (toInt wheelFlipFlag)

/-- Method `DeviceInstance.getWheelDirection` of main.go. The non-mouse return
comes before the `defer`. After it, a panic of the body is caught by the
deferred `recover()`; the function then returns normally, and since its `int`
result is unnamed and no `return` statement has run, the value returned is
the zero value `0`. -/
def DeviceInstance.getWheelDirection (reg : Registry) (d : DeviceInstance) : Except Panic Int :=
  if d.desc.isMouse = false then .ok WHEEL_UNKNOWN
  else
    match getWheelDirectionBody reg d with
    | .ok direction => .ok direction
    | .error _ => .ok 0

/-- Function `toggleWheel` of main.go: outcome and registry after the call. -/
def toggleWheel (reg : Registry) (inst : DeviceInstance) : Except Panic Unit × Registry :=
  match inst.getWheelDirection reg with
  | .error p => (.error p, reg)
  | .ok currentDirection =>
    if currentDirection ≠ WHEEL_FLIPPED ∧ currentDirection ≠ WHEEL_NORMAL then
      (.error Panic.unknownDirection, reg)
    else
      let path := joinPath [rootHidPath, inst.GetDevicePath, ascii "Device Parameters"]
      match panicOnError (OpenKey reg path Access.WRITE) (ascii "Open instance for writing") with
      | .error p => (.error p, reg)
      | .ok key =>
        let flippedValue := Int.xor currentDirection 1
        match panicOnError (key.SetDWordValue reg (ascii "FlipFlopWheel") (toUint32 flippedValue))
            (ascii "Set new value") with
        | .error p => (.error p, reg)
        | .ok reg1 => (.ok (), reg1)

/-! ## Vocabulary of the statements -/

/-- The comma byte: the separator passed to the first `strings.Index`. -/
def comma : Fin 256 := 44

/-- The semicolon byte: the separator passed to the second `strings.Index`. -/
def semicolon : Fin 256 := 59

/-- The node `toggleWheel` stores: `node` with `FlipFlopWheel` set to the DWORD `w`. -/
def withFlipFlopWheel (node : RegKey) (w : Nat) : RegKey :=
  { node with values := insert node.values (ascii "FlipFlopWheel") (RegValue.dword w) }

/-- Every access the program makes to this node succeeds. -/
def RegKey.allAccessOk (node : RegKey) : Prop :=
  node.readable = true ∧ node.writable = true ∧ node.statOk = true ∧ node.enumOk = true ∧
    node.setOk = true

/-! ## Example stores -/

/-- A key node on which every access succeeds. -/
def okKey (subKeys : List GoString) (values : List (GoString × RegValue)) : RegKey :=
  { subKeys := subKeys, values := values, readable := true, writable := true, statOk := true,
    enumOk := true, setOk := true }

/-- The `HID` branch with one root device `x` holding one instance `y` whose
`DeviceDesc` value is `desc` and whose subkeys are `ySubKeys`. -/
def hidBranch (x y desc : GoString) (ySubKeys : List GoString) : Registry :=
  [(rootHidPath, okKey [x] []),
   (joinPath [rootHidPath, x], okKey [y] []),
   (joinPath [rootHidPath, x, y], okKey ySubKeys [(ascii "DeviceDesc", RegValue.sz desc)])]

/-- One root device `x`, one instance `y` described by `desc`, no `Device
Parameters` key. -/
def hidStore (x y desc : GoString) : Registry := hidBranch x y desc []

/-- One root device `x`, one instance `y` described by `desc`, with the
`Device Parameters` node `params`. -/
def hidStoreWithParams (x y desc : GoString) (params : RegKey) : Registry :=
  hidBranch x y desc [ascii "Device Parameters"]
    ++ [(joinPath [rootHidPath, x, y, ascii "Device Parameters"], params)]

/-- The instance `Y` of device `X` with the description parsed from
`"@msmouse.inf,%t%;Mouse Y"`. -/
def mouseY : DeviceInstance :=
  { id := ascii "Y", parent := { id := ascii "X" },
    desc := { driver := ascii "@msmouse.inf", deviceType := ascii "%t%", name := ascii "Mouse Y" } }

/-- The instance `Y` of device `X` with the description parsed from
`"@mouhid.inf,%t%;Mouse Y"`. -/
def mouhidY : DeviceInstance :=
  { id := ascii "Y", parent := { id := ascii "X" },
    desc := { driver := ascii "@mouhid.inf", deviceType := ascii "%t%", name := ascii "Mouse Y" } }

/-- The `HID` branch with root devices `X` and `Z`: `X` holds the instances `A`
(a mouse) and `B` (a keyboard), `Z` holds the instance `C` (a mouse). -/
def twoDeviceStore : Registry :=
  [(rootHidPath, okKey [ascii "X", ascii "Z"] []),
   (joinPath [rootHidPath, ascii "X"], okKey [ascii "A", ascii "B"] []),
   (joinPath [rootHidPath, ascii "Z"], okKey [ascii "C"] []),
   (joinPath [rootHidPath, ascii "X", ascii "A"],
     okKey [] [(ascii "DeviceDesc", RegValue.sz (ascii "@msmouse.inf,%a%;Mouse A"))]),
   (joinPath [rootHidPath, ascii "X", ascii "B"],
     okKey [] [(ascii "DeviceDesc", RegValue.sz (ascii "@keyboard.inf,%b%;Keyboard B"))]),
   (joinPath [rootHidPath, ascii "Z", ascii "C"],
     okKey [] [(ascii "DeviceDesc", RegValue.sz (ascii "@msmouse.inf,%c%;Mouse C"))])]

/-- The instances of `twoDeviceStore`, by root device. -/
def twoDeviceInstances (d : Device) : List DeviceInstance :=
  if d.id = ascii "X" then
    [{ id := ascii "A", parent := d,
       desc := { driver := ascii "@msmouse.inf", deviceType := ascii "%a%",
                 name := ascii "Mouse A" } },
     { id := ascii "B", parent := d,
       desc := { driver := ascii "@keyboard.inf", deviceType := ascii "%b%",
                 name := ascii "Keyboard B" } }]
  else
    [{ id := ascii "C", parent := d,
       desc := { driver := ascii "@msmouse.inf", deviceType := ascii "%c%",
                 name := ascii "Mouse C" } }]

/-- The device `X` with two instances: `A` with a well-formed descriptor and `B`
whose values are `valuesB`. -/
def twoInstanceStore (valuesB : List (GoString × RegValue)) : Registry :=
  [(rootHidPath, okKey [ascii "X"] []),
   (joinPath [rootHidPath, ascii "X"], okKey [ascii "A", ascii "B"] []),
   (joinPath [rootHidPath, ascii "X", ascii "A"],
     okKey [] [(ascii "DeviceDesc", RegValue.sz (ascii "@msmouse.inf,%a%;Mouse A"))]),
   (joinPath [rootHidPath, ascii "X", ascii "B"], okKey [] valuesB)]

/-- A `Device Parameters` node whose only value is `FlipFlopWheel`. -/
def paramsNode (flipFlopWheel : RegValue) : RegKey :=
  okKey [] [(ascii "FlipFlopWheel", flipFlopWheel)]

/-! ## Lemmas on strings -/

theorem ascii_comma : ascii "," = [comma] := by decide

theorem ascii_semicolon : ascii ";" = [semicolon] := by decide

theorem indexFrom_singleton_append (b : Fin 256) (pre post : GoString) (h : b ∉ pre) (i : Nat) :
    indexFrom [b] (pre ++ b :: post) i = ((i + pre.length : Nat) : Int) := by
  induction pre generalizing i with
  | nil => simp [indexFrom]
  | cons c cs ih =>
    have hc : ¬ b = c := fun e => h (by simp [e])
    have hcs : b ∉ cs := fun e => h (by simp [e])
    have step : indexFrom [b] (c :: (cs ++ b :: post)) i
        = indexFrom [b] (cs ++ b :: post) (i + 1) := by
      simp only [indexFrom, List.cons_prefix_cons, hc, false_and, if_false]
    rw [List.cons_append, step, ih hcs (i + 1)]
    simp only [List.length_cons]
    congr 1
    omega

theorem indexFrom_singleton_absent (b : Fin 256) (s : GoString) (h : b ∉ s) (i : Nat) :
    indexFrom [b] s i = -1 := by
  induction s generalizing i with
  | nil => simp [indexFrom]
  | cons c cs ih =>
    have hc : ¬ b = c := fun e => h (by simp [e])
    have hcs : b ∉ cs := fun e => h (by simp [e])
    simp only [indexFrom, List.cons_prefix_cons, hc, false_and, if_false]
    exact ih hcs (i + 1)

theorem slice_ok (s : GoString) (lo hi : Nat) (h1 : lo ≤ hi) (h2 : hi ≤ s.length) :
    slice s (lo : Int) (hi : Int) = .ok ((s.take hi).drop lo) := by
  have hc : (0 : Int) ≤ (lo : Int) ∧ (lo : Int) ≤ (hi : Int) ∧ (hi : Int) ≤ (s.length : Int) := by
    omega
  simp only [slice, hc, and_self, if_true, Int.toNat_ofNat]

theorem slice_in_range (s : GoString) (lo hi : Int)
    (h : 0 ≤ lo ∧ lo ≤ hi ∧ hi ≤ (s.length : Int)) :
    slice s lo hi = .ok ((s.take hi.toNat).drop lo.toNat) := by
  simp only [slice, h, and_self, if_true]

theorem slice_neg_hi (s : GoString) (lo hi : Int) (h : hi < lo ∨ lo < 0) :
    slice s lo hi = .error Panic.sliceBounds := by
  have hc : ¬ ((0 : Int) ≤ lo ∧ lo ≤ hi ∧ hi ≤ (s.length : Int)) := by omega
  simp only [slice, hc, if_false]

theorem indexFrom_singleton_range (b : Fin 256) (s : GoString) (i : Nat) :
    indexFrom [b] s i = -1 ∨
      ((i : Int) ≤ indexFrom [b] s i ∧ indexFrom [b] s i < (i : Int) + (s.length : Int)) := by
  induction s generalizing i with
  | nil => left; simp [indexFrom]
  | cons c cs ih =>
    by_cases hc : b = c
    · right
      simp only [indexFrom, List.cons_prefix_cons, hc, List.nil_prefix, and_self, if_true,
        List.length_cons]
      omega
    · have step : indexFrom [b] (c :: cs) i = indexFrom [b] cs (i + 1) := by
        simp only [indexFrom, List.cons_prefix_cons, hc, false_and, if_false]
      rw [step]
      rcases ih (i + 1) with h | h
      · left; exact h
      · right
        simp only [List.length_cons]
        omega

theorem Index_singleton_range (b : Fin 256) (s : GoString) :
    Index s [b] = -1 ∨ (0 ≤ Index s [b] ∧ Index s [b] < (s.length : Int)) := by
  rcases indexFrom_singleton_range b s 0 with h | h
  · left; exact h
  · right
    simp only [Index]
    omega

/-- On every descriptor without a comma, without a semicolon, or with the first
semicolon before the first comma, one of the three slice expressions of
`parseDeviceDesc` is out of range. -/
theorem parseDeviceDesc_panics_of_malformed (desc : GoString)
    (h : Index desc (ascii ",") = -1 ∨ Index desc (ascii ";") = -1 ∨
      Index desc (ascii ";") < Index desc (ascii ",")) :
    parseDeviceDesc desc = .error Panic.sliceBounds := by
  rw [ascii_comma, ascii_semicolon] at h
  simp only [parseDeviceDesc, ascii_comma, ascii_semicolon]
  by_cases hc : Index desc [comma] = -1
  · rw [slice_neg_hi desc 0 (Index desc [comma]) (by omega)]
  · have hcr : 0 ≤ Index desc [comma] ∧ Index desc [comma] < (desc.length : Int) := by
      rcases Index_singleton_range comma desc with h1 | h1
      · exact absurd h1 hc
      · exact h1
    have hsr := Index_singleton_range semicolon desc
    have h3 : slice desc (Index desc [comma] + 1) (Index desc [semicolon])
        = .error Panic.sliceBounds := slice_neg_hi _ _ _ (by omega)
    rw [h3, slice_in_range desc 0 (Index desc [comma]) (by omega),
      slice_in_range desc (Index desc [semicolon] + 1) desc.length (by omega)]

/-! ## Descriptor parsing: claims C4 and C5 -/

/-- Claim C4. For every string `d` with neither a comma nor a semicolon, every
string `t` without a semicolon (empty or with commas allowed) and every string
`n` (empty, or with commas and semicolons allowed), `parseDeviceDesc` applied to
`d + "," + t + ";" + n` returns exactly the description with driver `d`,
device type `t` and name `n`. -/
theorem parseDeviceDesc_wellFormed (d t n : GoString)
    (hd : comma ∉ d ∧ semicolon ∉ d) (ht : semicolon ∉ t) :
    parseDeviceDesc (d ++ ascii "," ++ t ++ ascii ";" ++ n)
      = .ok { driver := d, deviceType := t, name := n } := by
  obtain ⟨hdc, hds⟩ := hd
  have hcomma : Index (d ++ [comma] ++ t ++ [semicolon] ++ n) [comma] = (d.length : Int) := by
    have := indexFrom_singleton_append comma d (t ++ [semicolon] ++ n) hdc 0
    simpa [Index] using this
  have hpre : semicolon ∉ d ++ [comma] ++ t := by
    simp only [List.mem_append, List.mem_singleton, not_or]
    exact ⟨⟨hds, by decide⟩, ht⟩
  have hsemi : Index (d ++ [comma] ++ t ++ [semicolon] ++ n) [semicolon]
      = ((d.length + 1 + t.length : Nat) : Int) := by
    have := indexFrom_singleton_append semicolon (d ++ [comma] ++ t) n hpre 0
    have hl : (d ++ [comma] ++ t).length = d.length + 1 + t.length := by
      simp only [List.length_append, List.length_singleton]
    rw [hl, Nat.zero_add] at this
    have e : d ++ [comma] ++ t ++ [semicolon] ++ n = (d ++ [comma] ++ t) ++ semicolon :: n := by
      simp only [List.append_assoc, List.singleton_append]
    rw [Index, e]
    exact this
  have hlen : (d ++ [comma] ++ t ++ [semicolon] ++ n).length
      = d.length + 1 + t.length + 1 + n.length := by
    simp only [List.length_append, List.length_singleton]
  simp only [parseDeviceDesc, ascii_comma, ascii_semicolon, hcomma, hsemi]
  have e1 : slice (d ++ [comma] ++ t ++ [semicolon] ++ n) 0 (d.length : Int) = .ok d := by
    have := slice_ok (d ++ [comma] ++ t ++ [semicolon] ++ n) 0 d.length (by omega) (by omega)
    simpa using this
  have e2 : slice (d ++ [comma] ++ t ++ [semicolon] ++ n)
      (((d.length + 1 + t.length : Nat) : Int) + 1)
      ((d ++ [comma] ++ t ++ [semicolon] ++ n).length : Int) = .ok n := by
    have := slice_ok (d ++ [comma] ++ t ++ [semicolon] ++ n) (d.length + 1 + t.length + 1)
      (d ++ [comma] ++ t ++ [semicolon] ++ n).length (by omega) (by omega)
    rw [List.take_length] at this
    have hdrop : List.drop (d.length + 1 + t.length + 1) (d ++ [comma] ++ t ++ [semicolon] ++ n)
        = n := by
      have hl : (d ++ [comma] ++ t ++ [semicolon]).length = d.length + 1 + t.length + 1 := by
        simp only [List.length_append, List.length_singleton]
      rw [← hl]
      exact List.drop_left _ _
    rw [hdrop] at this
    rw [← this]
    congr 1
  have e3 : slice (d ++ [comma] ++ t ++ [semicolon] ++ n) ((d.length : Int) + 1)
      ((d.length + 1 + t.length : Nat) : Int) = .ok t := by
    have := slice_ok (d ++ [comma] ++ t ++ [semicolon] ++ n) (d.length + 1)
      (d.length + 1 + t.length) (by omega) (by omega)
    have htake : List.take (d.length + 1 + t.length) (d ++ [comma] ++ t ++ [semicolon] ++ n)
        = d ++ [comma] ++ t := by
      have hl : (d ++ [comma] ++ t).length = d.length + 1 + t.length := by
        simp only [List.length_append, List.length_singleton]
      rw [← hl, List.append_assoc (d ++ [comma] ++ t)]
      exact List.take_left _ _
    have hdrop : List.drop (d.length + 1) (d ++ [comma] ++ t) = t := by
      have hl : (d ++ [comma]).length = d.length + 1 := by
        simp only [List.length_append, List.length_singleton]
      rw [← hl]
      exact List.drop_left _ _
    rw [htake, hdrop] at this
    rw [← this]
    congr 1
  rw [e1, e2, e3]

/-- Witness of claim C4 on a descriptor with an empty type token and a name
holding both separators. -/
theorem parseDeviceDesc_wellFormed_witness :
    (comma ∉ ascii "@msmouse.inf" ∧ semicolon ∉ ascii "@msmouse.inf") ∧
    semicolon ∉ ascii "" ∧
    parseDeviceDesc (ascii "@msmouse.inf" ++ ascii "," ++ ascii "" ++ ascii ";" ++ ascii "a,b;c")
      = .ok { driver := ascii "@msmouse.inf", deviceType := ascii "", name := ascii "a,b;c" } :=
  ⟨by decide, by decide,
    parseDeviceDesc_wellFormed (ascii "@msmouse.inf") (ascii "") (ascii "a,b;c")
      (by decide) (by decide)⟩

/-- Claim C5, evaluated. The claim asks for a parse error handed back to the
caller. On the empty string, on a string without a comma, on a string without
a semicolon and on a string whose semicolon precedes its comma the code
instead stops with the runtime panic of an out-of-range slice expression. -/
theorem parseDeviceDesc_malformed_sliceFault :
    parseDeviceDesc (ascii "") = .error Panic.sliceBounds ∧
    parseDeviceDesc (ascii "HID-compliant mouse;x") = .error Panic.sliceBounds ∧
    parseDeviceDesc (ascii "@msmouse.inf,HID-compliant mouse") = .error Panic.sliceBounds ∧
    parseDeviceDesc (ascii "a;b,c") = .error Panic.sliceBounds := by
  decide

/-! ## Lemmas on the registry model -/

theorem lookup_insert_self {β : Type} (l : List (GoString × β)) (name : GoString) (v : β) :
    lookup (insert l name v) name = some v := by
  induction l with
  | nil => simp [insert, lookup]
  | cons hd tl ih =>
    obtain ⟨k, w⟩ := hd
    by_cases hk : k = name
    · simp [insert, lookup, hk]
    · simp [insert, lookup, hk, ih]

theorem contains_fst_of_lookup {β : Type} (l : List (GoString × β)) (name : GoString) (v : β)
    (h : lookup l name = some v) : contains (l.map Prod.fst) name = true := by
  induction l with
  | nil => simp [lookup] at h
  | cons hd tl ih =>
    obtain ⟨k, w⟩ := hd
    by_cases hk : k = name
    · simp [contains, hk]
    · simp only [lookup, hk, if_false] at h
      simp [contains, hk, ih h]

theorem contains_fst_absent {β : Type} (l : List (GoString × β)) (name : GoString)
    (h : lookup l name = none) : contains (l.map Prod.fst) name = false := by
  induction l with
  | nil => simp [contains]
  | cons hd tl ih =>
    obtain ⟨k, w⟩ := hd
    by_cases hk : k = name
    · simp [lookup, hk] at h
    · simp only [lookup, hk, if_false] at h
      simp [contains, hk, ih h]

theorem lookup_ne_nil {β : Type} (l : List (GoString × β)) (name : GoString) (v : β)
    (h : lookup l name = some v) : l.length ≠ 0 := by
  cases l with
  | nil => simp [lookup] at h
  | cons hd tl => simp

/-- A successful `GetIntegerValue` comes from a stored value and is a `uint64`. -/
theorem GetIntegerValue_ok (k : Key) (name : GoString) (v : Nat)
    (h : k.GetIntegerValue name = .ok v) :
    (∃ x, lookup k.node.values name = some x) ∧ v < 2 ^ 64 := by
  unfold Key.GetIntegerValue at h
  split at h
  · cases h
  · injection h with h
    refine ⟨⟨_, by assumption⟩, ?_⟩
    rw [← h]
    exact Nat.lt_of_lt_of_le (Nat.mod_lt _ (by norm_num)) (by norm_num)
  · injection h with h
    refine ⟨⟨_, by assumption⟩, ?_⟩
    rw [← h]
    exact Nat.mod_lt _ (by norm_num)
  · cases h

/-- Reading all value names with the count reported by `Stat`. -/
theorem ReadValueNames_all (k : Key) (h : k.node.enumOk = true) :
    (k.ReadValueNames k.node.values.length).1 = k.node.values.map Prod.fst := by
  unfold Key.ReadValueNames
  simp only [h, Bool.true_eq_false, if_false, List.length_map, Nat.lt_irrefl]
  split
  · rfl
  · rw [← List.length_map k.node.values Prod.fst, List.take_length]

theorem toInt_small (v : Nat) (h : v < 2 ^ 63) : toInt v = (v : Int) := by
  have h1 : v % 2 ^ 64 = v := Nat.mod_eq_of_lt (by omega)
  simp only [toInt, h1, h, if_true]

theorem toInt_eq_zero (v : Nat) (h : v < 2 ^ 64) : toInt v = 0 ↔ v = 0 := by
  have h1 : v % 2 ^ 64 = v := Nat.mod_eq_of_lt h
  simp only [toInt, h1]
  split <;> omega

theorem toInt_eq_one (v : Nat) (h : v < 2 ^ 64) : toInt v = 1 ↔ v = 1 := by
  have h1 : v % 2 ^ 64 = v := Nat.mod_eq_of_lt h
  simp only [toInt, h1]
  split <;> omega

theorem flipped_value (v : Nat) (h : v = 0 ∨ v = 1) :
    toUint32 (Int.xor (toInt v) 1) = v ^^^ 1 := by
  rcases h with h | h <;> subst h <;> decide

/-! ## Lemmas on reading and toggling the wheel direction -/

/-- The path `toggleWheel` opens for writing is the path `getWheelDirection` reads. -/
theorem toggle_path_eq (d : DeviceInstance) :
    joinPath [rootHidPath, d.GetDevicePath, ascii "Device Parameters"]
      = joinPath [rootHidPath, d.parent.id, d.id, ascii "Device Parameters"] := by
  simp only [joinPath, Join, DeviceInstance.GetDevicePath, List.append_assoc]

theorem OpenKey_read (reg : Registry) (path : GoString) (node : RegKey)
    (hnode : lookup reg path = some node) (hr : node.readable = true) :
    OpenKey reg path Access.READ = .ok { path := path, node := node } := by
  simp only [OpenKey, hnode, hr, if_true]

theorem OpenKey_write (reg : Registry) (path : GoString) (node : RegKey)
    (hnode : lookup reg path = some node) (hw : node.writable = true) :
    OpenKey reg path Access.WRITE = .ok { path := path, node := node } := by
  simp only [OpenKey, hnode, hw, if_true]

/-- The body of `getWheelDirection` on a readable node holding an integer
`FlipFlopWheel` value `v` returns `int(v)`. -/
theorem getWheelDirectionBody_of_value (reg : Registry) (d : DeviceInstance) (node : RegKey)
    (v : Nat) (hnode : lookup reg d.getDeviceParamsPath = some node)
    (hr : node.readable = true) (hs : node.statOk = true) (he : node.enumOk = true)
    (hval : Key.GetIntegerValue { path := d.getDeviceParamsPath, node := node }
      KeyNameFlipFlopWheel = .ok v) :
    getWheelDirectionBody reg d = .ok (toInt v) := by
  obtain ⟨⟨x, hx⟩, _⟩ := GetIntegerValue_ok _ _ _ hval
  have hlen : node.values.length ≠ 0 := lookup_ne_nil _ _ _ hx
  have hnames := ReadValueNames_all { path := d.getDeviceParamsPath, node := node } he
  have hcont := contains_fst_of_lookup _ _ _ hx
  have hopen := OpenKey_read reg d.getDeviceParamsPath node hnode hr
  unfold DeviceInstance.getDeviceParamsPath at hopen
  simp only [getWheelDirectionBody, hopen, panicOnError, Key.Stat, hs, if_true, hlen, if_false]
  unfold DeviceInstance.getDeviceParamsPath at hnames hval
  rw [hnames, hcont, hval]
  simp only [Bool.true_eq_false, if_false]

theorem getWheelDirection_of_value (reg : Registry) (d : DeviceInstance) (node : RegKey)
    (v : Nat) (hmouse : d.desc.isMouse = true)
    (hnode : lookup reg d.getDeviceParamsPath = some node)
    (hr : node.readable = true) (hs : node.statOk = true) (he : node.enumOk = true)
    (hval : Key.GetIntegerValue { path := d.getDeviceParamsPath, node := node }
      KeyNameFlipFlopWheel = .ok v) :
    d.getWheelDirection reg = .ok (toInt v) := by
  simp only [DeviceInstance.getWheelDirection, hmouse, Bool.true_eq_false, if_false,
    getWheelDirectionBody_of_value reg d node v hnode hr hs he hval]

/-- What `toggleWheel` does on a mouse whose `Device Parameters` node holds the
integer `v ∈ {0, 1}` when every access succeeds. -/
theorem toggleWheel_of_value (reg : Registry) (d : DeviceInstance) (node : RegKey)
    (v : Nat) (hmouse : d.desc.isMouse = true)
    (hnode : lookup reg d.getDeviceParamsPath = some node)
    (hr : node.readable = true) (hw : node.writable = true) (hs : node.statOk = true)
    (he : node.enumOk = true) (hset : node.setOk = true)
    (hval : Key.GetIntegerValue { path := d.getDeviceParamsPath, node := node }
      KeyNameFlipFlopWheel = .ok v)
    (hv : v = 0 ∨ v = 1) :
    toggleWheel reg d
      = (.ok (), insert reg d.getDeviceParamsPath (withFlipFlopWheel node (v ^^^ 1))) := by
  have hdir := getWheelDirection_of_value reg d node v hmouse hnode hr hs he hval
  have hopen := OpenKey_write reg d.getDeviceParamsPath node hnode hw
  unfold DeviceInstance.getDeviceParamsPath at hopen
  have hguard : ¬ (toInt v ≠ WHEEL_FLIPPED ∧ toInt v ≠ WHEEL_NORMAL) := by
    rcases hv with h | h <;> subst h <;> decide
  simp only [toggleWheel, hdir, hguard, if_false, toggle_path_eq, hopen, panicOnError,
    Key.SetDWordValue, hset, if_true, flipped_value v hv, withFlipFlopWheel,
    DeviceInstance.getDeviceParamsPath]

theorem getWheelDirection_not_mouse (reg : Registry) (d : DeviceInstance)
    (h : d.desc.isMouse = false) : d.getWheelDirection reg = .ok WHEEL_UNKNOWN := by
  simp only [DeviceInstance.getWheelDirection, h, if_true]

theorem getWheelDirection_value_absent (reg : Registry) (d : DeviceInstance) (node : RegKey)
    (hmouse : d.desc.isMouse = true)
    (hnode : lookup reg d.getDeviceParamsPath = some node)
    (hr : node.readable = true) (hs : node.statOk = true)
    (habs : lookup node.values KeyNameFlipFlopWheel = none) :
    d.getWheelDirection reg = .ok WHEEL_UNKNOWN := by
  have hopen := OpenKey_read reg d.getDeviceParamsPath node hnode hr
  unfold DeviceInstance.getDeviceParamsPath at hopen
  have hcont := contains_fst_absent _ _ habs
  simp only [DeviceInstance.getWheelDirection, hmouse, Bool.true_eq_false, if_false,
    getWheelDirectionBody, hopen, panicOnError, Key.Stat, hs, if_true]
  by_cases hlen : node.values.length = 0
  · simp only [hlen, if_true]
  · simp only [hlen, if_false]
    by_cases he : node.enumOk = true
    · have hnames := ReadValueNames_all
        { path := joinPath [rootHidPath, d.parent.id, d.id, ascii "Device Parameters"],
          node := node } he
      simp only at hnames
      rw [hnames, hcont]
      simp only [if_true]
    · have he2 : node.enumOk = false := by simpa using he
      simp only [Key.ReadValueNames, he2, if_true, contains]

/-- A mouse whose `Device Parameters` key fails to open: the recovered panic
leaves the result at `0`. -/
theorem getWheelDirection_of_open_failure (reg : Registry) (d : DeviceInstance) (e : RegError)
    (hmouse : d.desc.isMouse = true)
    (hopen : OpenKey reg (joinPath [rootHidPath, d.parent.id, d.id, ascii "Device Parameters"])
      Access.READ = .error e) :
    d.getWheelDirection reg = .ok WHEEL_NORMAL := by
  simp only [DeviceInstance.getWheelDirection, hmouse, Bool.true_eq_false, if_false,
    getWheelDirectionBody, hopen, panicOnError, WHEEL_NORMAL]

theorem toggleWheel_of_unknown (reg : Registry) (d : DeviceInstance)
    (h : d.getWheelDirection reg = .ok WHEEL_UNKNOWN) :
    toggleWheel reg d = (.error Panic.unknownDirection, reg) := by
  have hguard : WHEEL_UNKNOWN ≠ WHEEL_FLIPPED ∧ WHEEL_UNKNOWN ≠ WHEEL_NORMAL := by decide
  simp only [toggleWheel, h]
  rw [if_pos hguard]

theorem GetIntegerValue_withFlipFlopWheel (path : GoString) (node : RegKey) (w : Nat)
    (hw : w = 0 ∨ w = 1) :
    Key.GetIntegerValue { path := path, node := withFlipFlopWheel node w } KeyNameFlipFlopWheel
      = .ok w := by
  have hl : lookup (withFlipFlopWheel node w).values KeyNameFlipFlopWheel
      = some (RegValue.dword w) := lookup_insert_self _ _ _
  have hmod : w % 2 ^ 32 = w := by rcases hw with h | h <;> subst h <;> rfl
  simp only [Key.GetIntegerValue, hl, hmod]

theorem xor_one_bit (v : Nat) (hv : v = 0 ∨ v = 1) :
    (v ^^^ 1 = 0 ∨ v ^^^ 1 = 1) ∧ v ^^^ 1 ^^^ 1 = v ∧ v ^^^ 1 ≠ v := by
  rcases hv with h | h <;> subst h <;> decide

/-- A resolved state Normal or Flipped on a node read without failure comes
from a mouse and from a stored integer 0 or 1. -/
theorem state_binary (reg : Registry) (d : DeviceInstance) (node : RegKey) (v : Nat)
    (hnode : lookup reg d.getDeviceParamsPath = some node)
    (hr : node.readable = true) (hs : node.statOk = true) (he : node.enumOk = true)
    (hval : Key.GetIntegerValue { path := d.getDeviceParamsPath, node := node }
      KeyNameFlipFlopWheel = .ok v)
    (hstate : d.getWheelDirection reg = .ok WHEEL_NORMAL ∨
      d.getWheelDirection reg = .ok WHEEL_FLIPPED) :
    d.desc.isMouse = true ∧ (v = 0 ∨ v = 1) := by
  have hmouse : d.desc.isMouse = true := by
    by_contra hm
    have hm2 : d.desc.isMouse = false := by simpa using hm
    rw [getWheelDirection_not_mouse reg d hm2] at hstate
    rcases hstate with h | h <;> exact absurd h (by decide)
  refine ⟨hmouse, ?_⟩
  have hlt := (GetIntegerValue_ok _ _ _ hval).2
  rw [getWheelDirection_of_value reg d node v hmouse hnode hr hs he hval] at hstate
  rcases hstate with h | h
  · left
    injection h with h
    exact (toInt_eq_zero v hlt).1 h
  · right
    injection h with h
    exact (toInt_eq_one v hlt).1 h

/-! ## Claims C1, C2, C3: toggling -/

/-- Claim C1. For every mouse instance whose `Device Parameters` node holds
`FlipFlopWheel = v` with `v` in `{0, 1}`, on a node where every access succeeds:
the path `toggleWheel` writes to is the path `getWheelDirection` reads from,
`getWheelDirection` reads `v` there, `toggleWheel` succeeds and leaves the
registry with that node's value named `FlipFlopWheel` set to the integer
`v XOR 1` (1 for 0, 0 for 1), which is what the node then reads back. -/
theorem toggleWheel_writes_xor (reg : Registry) (d : DeviceInstance) (node : RegKey) (v : Nat)
    (hmouse : d.desc.isMouse = true)
    (hnode : lookup reg (joinPath [rootHidPath, d.parent.id, d.id, ascii "Device Parameters"])
      = some node)
    (hacc : node.allAccessOk)
    (hval : Key.GetIntegerValue
      { path := joinPath [rootHidPath, d.parent.id, d.id, ascii "Device Parameters"],
        node := node } KeyNameFlipFlopWheel = .ok v)
    (hv : v = 0 ∨ v = 1) :
    joinPath [rootHidPath, d.GetDevicePath, ascii "Device Parameters"]
        = joinPath [rootHidPath, d.parent.id, d.id, ascii "Device Parameters"] ∧
      d.getWheelDirection reg = .ok (v : Int) ∧
      toggleWheel reg d
        = (.ok (), insert reg (joinPath [rootHidPath, d.GetDevicePath, ascii "Device Parameters"])
            (withFlipFlopWheel node (v ^^^ 1))) ∧
      lookup (toggleWheel reg d).2
          (joinPath [rootHidPath, d.GetDevicePath, ascii "Device Parameters"])
        = some (withFlipFlopWheel node (v ^^^ 1)) ∧
      lookup (withFlipFlopWheel node (v ^^^ 1)).values (ascii "FlipFlopWheel")
        = some (RegValue.dword (v ^^^ 1)) ∧
      (v = 0 → v ^^^ 1 = 1) ∧ (v = 1 → v ^^^ 1 = 0) := by
  obtain ⟨hr, hw, hs, he, hset⟩ := hacc
  have hdir := getWheelDirection_of_value reg d node v hmouse hnode hr hs he hval
  have htog := toggleWheel_of_value reg d node v hmouse hnode hr hw hs he hset hval hv
  have hsmall : v < 2 ^ 63 := by rcases hv with h | h <;> subst h <;> norm_num
  rw [toInt_small v hsmall] at hdir
  unfold DeviceInstance.getDeviceParamsPath at htog
  refine ⟨toggle_path_eq d, hdir, ?_, ?_, ?_, ?_, ?_⟩
  · rw [toggle_path_eq]
    exact htog
  · rw [htog, toggle_path_eq]
    exact lookup_insert_self _ _ _
  · exact lookup_insert_self _ _ _
  · intro h; subst h; decide
  · intro h; subst h; decide

/-- Witness of claim C1: the mouse `Y` of device `X` with `FlipFlopWheel = 0`. -/
theorem toggleWheel_writes_xor_witness :
    toggleWheel (hidStoreWithParams (ascii "X") (ascii "Y") (ascii "@msmouse.inf,%t%;Mouse Y")
        (paramsNode (RegValue.dword 0))) mouseY
      = (.ok (), insert (hidStoreWithParams (ascii "X") (ascii "Y")
            (ascii "@msmouse.inf,%t%;Mouse Y") (paramsNode (RegValue.dword 0)))
          (joinPath [rootHidPath, mouseY.GetDevicePath, ascii "Device Parameters"])
          (withFlipFlopWheel (paramsNode (RegValue.dword 0)) (0 ^^^ 1))) :=
  (toggleWheel_writes_xor
    (hidStoreWithParams (ascii "X") (ascii "Y") (ascii "@msmouse.inf,%t%;Mouse Y")
      (paramsNode (RegValue.dword 0)))
    mouseY (paramsNode (RegValue.dword 0)) 0 (by decide) (by decide)
    ⟨rfl, rfl, rfl, rfl, rfl⟩ (by decide) (Or.inl rfl)).2.2.1

/-- Claim C3. When the state `getWheelDirection` resolves is Unknown,
`toggleWheel` panics with "Unknown current direction" and the registry after
the call is the registry before it. The state is Unknown for an instance that
is not a mouse, for a mouse whose `Device Parameters` node has no values, and
for a mouse whose node has no `FlipFlopWheel` value. -/
theorem toggleWheel_unknown_no_write (reg : Registry) (d : DeviceInstance) :
    (d.getWheelDirection reg = .ok WHEEL_UNKNOWN →
        toggleWheel reg d = (.error Panic.unknownDirection, reg)) ∧
      (d.desc.isMouse = false →
        d.getWheelDirection reg = .ok WHEEL_UNKNOWN ∧
          toggleWheel reg d = (.error Panic.unknownDirection, reg)) ∧
      (∀ node : RegKey, d.desc.isMouse = true →
        lookup reg (joinPath [rootHidPath, d.parent.id, d.id, ascii "Device Parameters"])
          = some node →
        node.readable = true → node.statOk = true → node.values = [] →
        d.getWheelDirection reg = .ok WHEEL_UNKNOWN ∧
          toggleWheel reg d = (.error Panic.unknownDirection, reg)) ∧
      (∀ node : RegKey, d.desc.isMouse = true →
        lookup reg (joinPath [rootHidPath, d.parent.id, d.id, ascii "Device Parameters"])
          = some node →
        node.readable = true → node.statOk = true →
        lookup node.values KeyNameFlipFlopWheel = none →
        d.getWheelDirection reg = .ok WHEEL_UNKNOWN ∧
          toggleWheel reg d = (.error Panic.unknownDirection, reg)) := by
  refine ⟨toggleWheel_of_unknown reg d, ?_, ?_, ?_⟩
  · intro h
    have hu := getWheelDirection_not_mouse reg d h
    exact ⟨hu, toggleWheel_of_unknown reg d hu⟩
  · intro node hmouse hnode hr hs hvals
    have hu := getWheelDirection_value_absent reg d node hmouse hnode hr hs
      (by rw [hvals]; rfl)
    exact ⟨hu, toggleWheel_of_unknown reg d hu⟩
  · intro node hmouse hnode hr hs habs
    have hu := getWheelDirection_value_absent reg d node hmouse hnode hr hs habs
    exact ⟨hu, toggleWheel_of_unknown reg d hu⟩

/-- Witness of claim C3: a mouse whose `Device Parameters` node has values but
no `FlipFlopWheel`, and the same store queried for an instance that is not a mouse. -/
theorem toggleWheel_unknown_no_write_witness :
    toggleWheel (hidStoreWithParams (ascii "X") (ascii "Y") (ascii "@msmouse.inf,%t%;Mouse Y")
        (okKey [] [(ascii "Other", RegValue.dword 1)])) mouseY
      = (.error Panic.unknownDirection,
          hidStoreWithParams (ascii "X") (ascii "Y") (ascii "@msmouse.inf,%t%;Mouse Y")
            (okKey [] [(ascii "Other", RegValue.dword 1)])) ∧
    toggleWheel (hidStoreWithParams (ascii "X") (ascii "Y") (ascii "@mouhid.inf,%t%;Mouse Y")
        (paramsNode (RegValue.dword 0))) mouhidY
      = (.error Panic.unknownDirection,
          hidStoreWithParams (ascii "X") (ascii "Y") (ascii "@mouhid.inf,%t%;Mouse Y")
            (paramsNode (RegValue.dword 0))) :=
  ⟨((toggleWheel_unknown_no_write _ mouseY).2.2.2 (okKey [] [(ascii "Other", RegValue.dword 1)])
      (by decide) (by decide) rfl rfl (by decide)).2,
   ((toggleWheel_unknown_no_write _ mouhidY).2.1 (by decide)).2⟩

/-- Claim C2. For every instance whose resolved state is Normal or Flipped, on a
`Device Parameters` node where every access succeeds (the `FlipFlopWheel` read
included), two successive calls of `toggleWheel` both succeed, the state
resolved between them differs from the original one, and after the second
call the node's `FlipFlopWheel` value reads as the original integer and
`getWheelDirection` resolves the original state. -/
theorem toggleWheel_twice_restores (reg : Registry) (d : DeviceInstance) (node : RegKey) (v : Nat)
    (hnode : lookup reg (joinPath [rootHidPath, d.parent.id, d.id, ascii "Device Parameters"])
      = some node)
    (hacc : node.allAccessOk)
    (hval : Key.GetIntegerValue
      { path := joinPath [rootHidPath, d.parent.id, d.id, ascii "Device Parameters"],
        node := node } KeyNameFlipFlopWheel = .ok v)
    (hstate : d.getWheelDirection reg = .ok WHEEL_NORMAL ∨
      d.getWheelDirection reg = .ok WHEEL_FLIPPED) :
    (toggleWheel reg d).1 = .ok () ∧
      (toggleWheel (toggleWheel reg d).2 d).1 = .ok () ∧
      d.getWheelDirection (toggleWheel reg d).2 ≠ d.getWheelDirection reg ∧
      (∃ node2 : RegKey,
        lookup (toggleWheel (toggleWheel reg d).2 d).2
            (joinPath [rootHidPath, d.parent.id, d.id, ascii "Device Parameters"]) = some node2 ∧
          Key.GetIntegerValue
            { path := joinPath [rootHidPath, d.parent.id, d.id, ascii "Device Parameters"],
              node := node2 } KeyNameFlipFlopWheel = .ok v) ∧
      d.getWheelDirection (toggleWheel (toggleWheel reg d).2 d).2 = d.getWheelDirection reg := by
  obtain ⟨hr, hw, hs, he, hset⟩ := hacc
  obtain ⟨hmouse, hv⟩ := state_binary reg d node v hnode hr hs he hval hstate
  obtain ⟨hv1, hv2, hv3⟩ := xor_one_bit v hv
  have hlt : v < 2 ^ 64 := (GetIntegerValue_ok _ _ _ hval).2
  have hlt1 : v ^^^ 1 < 2 ^ 64 := by rcases hv1 with h | h <;> rw [h] <;> norm_num
  -- first call
  have hdir0 := getWheelDirection_of_value reg d node v hmouse hnode hr hs he hval
  have htog1 := toggleWheel_of_value reg d node v hmouse hnode hr hw hs he hset hval hv
  have hnode1 : lookup (insert reg d.getDeviceParamsPath (withFlipFlopWheel node (v ^^^ 1)))
      d.getDeviceParamsPath = some (withFlipFlopWheel node (v ^^^ 1)) := lookup_insert_self _ _ _
  have hval1 := GetIntegerValue_withFlipFlopWheel d.getDeviceParamsPath node (v ^^^ 1) hv1
  have hdir1 := getWheelDirection_of_value _ d _ (v ^^^ 1) hmouse hnode1 hr hs he hval1
  -- second call
  have htog2 := toggleWheel_of_value _ d _ (v ^^^ 1) hmouse hnode1 hr hw hs he hset hval1 hv1
  rw [hv2] at htog2
  have hnode2 : lookup (insert (insert reg d.getDeviceParamsPath (withFlipFlopWheel node (v ^^^ 1)))
      d.getDeviceParamsPath (withFlipFlopWheel (withFlipFlopWheel node (v ^^^ 1)) v))
      d.getDeviceParamsPath = some (withFlipFlopWheel (withFlipFlopWheel node (v ^^^ 1)) v) :=
    lookup_insert_self _ _ _
  have hval2 := GetIntegerValue_withFlipFlopWheel d.getDeviceParamsPath
    (withFlipFlopWheel node (v ^^^ 1)) v hv
  have hdir2 := getWheelDirection_of_value _ d _ v hmouse hnode2 hr hs he hval2
  rw [htog1, htog2, hdir0]
  refine ⟨rfl, rfl, ?_, ⟨_, hnode2, hval2⟩, hdir2⟩
  rw [hdir1]
  intro h
  injection h with h
  have h0 : toInt (v ^^^ 1) = 0 ↔ v ^^^ 1 = 0 := toInt_eq_zero _ hlt1
  have h1 : toInt v = 0 ↔ v = 0 := toInt_eq_zero _ hlt
  have h2 : toInt (v ^^^ 1) = 1 ↔ v ^^^ 1 = 1 := toInt_eq_one _ hlt1
  have h3 : toInt v = 1 ↔ v = 1 := toInt_eq_one _ hlt
  rcases hv with e | e
  · have : v ^^^ 1 = 0 := h0.1 (by rw [h]; exact h1.2 e)
    exact hv3 (this.trans e.symm)
  · have : v ^^^ 1 = 1 := h2.1 (by rw [h]; exact h3.2 e)
    exact hv3 (this.trans e.symm)

/-- Witness of claim C2: the mouse `Y` of device `X`, stored value 1 (Flipped). -/
theorem toggleWheel_twice_restores_witness :
    mouseY.getWheelDirection
        (toggleWheel (toggleWheel (hidStoreWithParams (ascii "X") (ascii "Y")
          (ascii "@msmouse.inf,%t%;Mouse Y") (paramsNode (RegValue.dword 1))) mouseY).2 mouseY).2
      = mouseY.getWheelDirection (hidStoreWithParams (ascii "X") (ascii "Y")
          (ascii "@msmouse.inf,%t%;Mouse Y") (paramsNode (RegValue.dword 1))) :=
  (toggleWheel_twice_restores
    (hidStoreWithParams (ascii "X") (ascii "Y") (ascii "@msmouse.inf,%t%;Mouse Y")
      (paramsNode (RegValue.dword 1)))
    mouseY (paramsNode (RegValue.dword 1)) 1 (by decide) ⟨rfl, rfl, rfl, rfl, rfl⟩
    (by decide) (Or.inr (by decide))).2.2.2.2

/-! ## Claims C6, C7: reading the wheel direction -/

/-- Claim C6 as stated fails. With `FlipFlopWheel = 2` the function signals
nothing and returns the integer 2; with the QWORD `2 ^ 64 - 1` it returns `-1`,
the Unknown constant. -/
theorem getWheelDirection_out_of_domain_returned :
    mouseY.getWheelDirection (hidStoreWithParams (ascii "X") (ascii "Y")
        (ascii "@msmouse.inf,%t%;Mouse Y") (paramsNode (RegValue.dword 2))) = .ok 2 ∧
    mouseY.getWheelDirection (hidStoreWithParams (ascii "X") (ascii "Y")
        (ascii "@msmouse.inf,%t%;Mouse Y") (paramsNode (RegValue.qword (2 ^ 64 - 1))))
      = .ok WHEEL_UNKNOWN := by
  decide

/-- Claim C6, amended. For every mouse instance whose `Device Parameters` node
is read without failure and has an integer `FlipFlopWheel` value `v`,
`getWheelDirection` returns `int(v)`: Flipped when `v = 1`, Normal when
`v = 0`, and for every other `v` an integer that is neither Normal nor Flipped,
with no error signalled; `toggleWheel` then panics with "Unknown current
direction" and leaves the registry as it was. -/
theorem getWheelDirection_returns_stored_integer (reg : Registry) (d : DeviceInstance)
    (node : RegKey) (v : Nat)
    (hmouse : d.desc.isMouse = true)
    (hnode : lookup reg (joinPath [rootHidPath, d.parent.id, d.id, ascii "Device Parameters"])
      = some node)
    (hread : node.readable = true ∧ node.statOk = true ∧ node.enumOk = true)
    (hval : Key.GetIntegerValue
      { path := joinPath [rootHidPath, d.parent.id, d.id, ascii "Device Parameters"],
        node := node } KeyNameFlipFlopWheel = .ok v) :
    d.getWheelDirection reg = .ok (toInt v) ∧
      (v = 1 → d.getWheelDirection reg = .ok WHEEL_FLIPPED) ∧
      (v = 0 → d.getWheelDirection reg = .ok WHEEL_NORMAL) ∧
      (v ≠ 0 → v ≠ 1 →
        toInt v ≠ WHEEL_NORMAL ∧ toInt v ≠ WHEEL_FLIPPED ∧
          toggleWheel reg d = (.error Panic.unknownDirection, reg)) := by
  obtain ⟨hr, hs, he⟩ := hread
  have hdir := getWheelDirection_of_value reg d node v hmouse hnode hr hs he hval
  have hlt : v < 2 ^ 64 := (GetIntegerValue_ok _ _ _ hval).2
  refine ⟨hdir, ?_, ?_, ?_⟩
  · intro h
    rw [hdir, h]
    rfl
  · intro h
    rw [hdir, h]
    rfl
  · intro h0 h1
    have n0 : toInt v ≠ WHEEL_NORMAL := fun e => h0 ((toInt_eq_zero v hlt).1 e)
    have n1 : toInt v ≠ WHEEL_FLIPPED := fun e => h1 ((toInt_eq_one v hlt).1 e)
    refine ⟨n0, n1, ?_⟩
    simp only [toggleWheel, hdir]
    rw [if_pos ⟨n1, n0⟩]

/-- Witness of claim C6 (amended): the stored value 2 on the mouse `Y` of device `X`. -/
theorem getWheelDirection_returns_stored_integer_witness :
    mouseY.getWheelDirection (hidStoreWithParams (ascii "X") (ascii "Y")
        (ascii "@msmouse.inf,%t%;Mouse Y") (paramsNode (RegValue.dword 2))) = .ok (toInt 2) ∧
    toggleWheel (hidStoreWithParams (ascii "X") (ascii "Y")
        (ascii "@msmouse.inf,%t%;Mouse Y") (paramsNode (RegValue.dword 2))) mouseY
      = (.error Panic.unknownDirection, hidStoreWithParams (ascii "X") (ascii "Y")
          (ascii "@msmouse.inf,%t%;Mouse Y") (paramsNode (RegValue.dword 2))) :=
  ⟨(getWheelDirection_returns_stored_integer _ mouseY (paramsNode (RegValue.dword 2)) 2
      (by decide) (by decide) ⟨rfl, rfl, rfl⟩ (by decide)).1,
   ((getWheelDirection_returns_stored_integer _ mouseY (paramsNode (RegValue.dword 2)) 2
      (by decide) (by decide) ⟨rfl, rfl, rfl⟩ (by decide)).2.2.2 (by decide) (by decide)).2.2⟩

/-- Claim C7, evaluated. For the mouse `Y` of device `X` whose `Device
Parameters` node is missing, and likewise when the node exists but opening it
is denied, the panic of `panicOnError` is recovered and `getWheelDirection`
returns 0, the Normal constant, where the claim asks for Unknown (-1). On a
node that opens and has no values it does return Unknown. -/
theorem getWheelDirection_unopenable_returns_normal :
    OpenKey (hidStore (ascii "X") (ascii "Y") (ascii "@msmouse.inf,%t%;Mouse Y"))
        (joinPath [rootHidPath, mouseY.parent.id, mouseY.id, ascii "Device Parameters"])
        Access.READ = .error RegError.notExist ∧
    mouseY.getWheelDirection (hidStore (ascii "X") (ascii "Y") (ascii "@msmouse.inf,%t%;Mouse Y"))
      = .ok WHEEL_NORMAL ∧
    OpenKey (hidStoreWithParams (ascii "X") (ascii "Y") (ascii "@msmouse.inf,%t%;Mouse Y")
          { paramsNode (RegValue.dword 1) with readable := false })
        (joinPath [rootHidPath, mouseY.parent.id, mouseY.id, ascii "Device Parameters"])
        Access.READ = .error RegError.accessDenied ∧
    mouseY.getWheelDirection (hidStoreWithParams (ascii "X") (ascii "Y")
        (ascii "@msmouse.inf,%t%;Mouse Y")
        { paramsNode (RegValue.dword 1) with readable := false }) = .ok WHEEL_NORMAL ∧
    WHEEL_NORMAL ≠ WHEEL_UNKNOWN ∧
    mouseY.getWheelDirection (hidStoreWithParams (ascii "X") (ascii "Y")
        (ascii "@msmouse.inf,%t%;Mouse Y") (okKey [] [])) = .ok WHEEL_UNKNOWN := by
  decide

/-! ## Claim C8: the mouse filter -/

theorem appendMice_eq (instances mice : List DeviceInstance) :
    appendMice instances mice = mice ++ instances.filter (fun i => i.desc.isMouse) := by
  induction instances generalizing mice with
  | nil => simp [appendMice]
  | cons i rest ih =>
    by_cases hm : i.desc.isMouse = true
    · simp only [appendMice, hm, if_true, ih, List.filter_cons_of_pos, List.append_assoc,
        List.singleton_append]
    · simp only [appendMice, hm, if_false, ih, Bool.false_eq_true]
      rw [List.filter_cons_of_neg (by simpa using hm)]

theorem loadDeviceInstancesLoop_eq (reg : Registry) (insts : Device → List DeviceInstance)
    (devices : List Device) (mice : List DeviceInstance)
    (h : ∀ d ∈ devices, d.listInstances reg = .ok (insts d)) :
    loadDeviceInstancesLoop reg devices mice
      = .ok (mice ++ (devices.flatMap insts).filter (fun i => i.desc.isMouse)) := by
  induction devices generalizing mice with
  | nil => simp [loadDeviceInstancesLoop]
  | cons d rest ih =>
    have hd := h d (List.mem_cons_self d rest)
    have hrest : ∀ e ∈ rest, e.listInstances reg = .ok (insts e) :=
      fun e he => h e (List.mem_cons_of_mem d he)
    simp only [loadDeviceInstancesLoop, hd, ih _ hrest, appendMice_eq, List.flatMap_cons,
      List.filter_append, List.append_assoc]

/-- Claim C8. When the enumeration of every given root device succeeds (with
`insts d` the instances of device `d`), `loadDeviceInstances` returns the
concatenation of the enumerations in device order, filtered to the instances
whose driver token equals `"@msmouse.inf"` byte for byte. The result is a
subsequence of the nested enumeration, holds every instance for which `isMouse`
is true and holds no other instance. -/
theorem loadDeviceInstances_filters_mice (reg : Registry) (devices : List Device)
    (insts : Device → List DeviceInstance)
    (h : ∀ d ∈ devices, d.listInstances reg = .ok (insts d)) :
    loadDeviceInstances reg devices
        = .ok ((devices.flatMap insts).filter
            (fun i => decide (i.desc.driver = ascii "@msmouse.inf"))) ∧
      ((devices.flatMap insts).filter
          (fun i => decide (i.desc.driver = ascii "@msmouse.inf"))).Sublist
        (devices.flatMap insts) ∧
      ∀ i : DeviceInstance,
        i ∈ (devices.flatMap insts).filter
            (fun i => decide (i.desc.driver = ascii "@msmouse.inf")) ↔
          i ∈ devices.flatMap insts ∧ i.desc.isMouse = true := by
  refine ⟨?_, List.filter_sublist _, ?_⟩
  · have := loadDeviceInstancesLoop_eq reg insts devices [] h
    simpa only [loadDeviceInstances, List.nil_append, deviceDesc.isMouse] using this
  · intro i
    simp only [List.mem_filter, deviceDesc.isMouse]

/-- Witness of claim C8: two root devices, three instances, two of them mice. -/
theorem loadDeviceInstances_filters_mice_witness :
    loadDeviceInstances twoDeviceStore [{ id := ascii "X" }, { id := ascii "Z" }]
      = .ok (([{ id := ascii "X" }, { id := ascii "Z" }].flatMap twoDeviceInstances).filter
          (fun i => decide (i.desc.driver = ascii "@msmouse.inf"))) :=
  (loadDeviceInstances_filters_mice twoDeviceStore [{ id := ascii "X" }, { id := ascii "Z" }]
    twoDeviceInstances (by decide)).1

/-! ## Claims C9, C10: enumeration -/

/-- The loop of `listInstances` panics at the first child whose descriptor does
not parse, whatever was collected before and whatever follows. -/
theorem listInstancesLoop_panics_at_bad_child (reg : Registry) (d : Device)
    (hidPath : GoString) (before after : List GoString) (c : GoString) (key : Key) (p : Panic)
    (result : List DeviceInstance)
    (hbefore : ∀ n ∈ before, ∃ k parsed,
      OpenKey reg (joinPath [hidPath, n]) Access.READ = .ok k ∧
        parseDeviceDesc (k.GetStringValue (ascii "DeviceDesc")).1 = .ok parsed)
    (hopen : OpenKey reg (joinPath [hidPath, c]) Access.READ = .ok key)
    (hbad : parseDeviceDesc (key.GetStringValue (ascii "DeviceDesc")).1 = .error p) :
    listInstancesLoop reg d hidPath (before ++ c :: after) result = .error p := by
  induction before generalizing result with
  | nil => simp only [List.nil_append, listInstancesLoop, hopen, panicOnError, hbad]
  | cons n rest ih =>
    obtain ⟨k, parsed, hk, hparsed⟩ := hbefore n (List.mem_cons_self n rest)
    have hrest : ∀ m ∈ rest, ∃ k parsed,
        OpenKey reg (joinPath [hidPath, m]) Access.READ = .ok k ∧
          parseDeviceDesc (k.GetStringValue (ascii "DeviceDesc")).1 = .ok parsed :=
      fun m hm => hbefore m (List.mem_cons_of_mem n hm)
    simp only [List.cons_append, listInstancesLoop, hk, panicOnError, hparsed]
    exact ih _ hrest

/-- Claim C9, evaluated. Device `X` has the instances `A` (well-formed
descriptor) and `B`. When `B` has no `DeviceDesc` value, when its `DeviceDesc`
is not a string, and when it is a string without separators, `listInstances`
stops with the out-of-range slice panic of `parseDeviceDesc` and returns no
instance at all, where the claim asks for both instances with `B` lacking a
description. With a well-formed `DeviceDesc` on `B` both instances come back
in the store's order. -/
theorem listInstances_bad_descriptor_aborts :
    Device.listInstances (twoInstanceStore []) { id := ascii "X" }
      = .error Panic.sliceBounds ∧
    Device.listInstances (twoInstanceStore [(ascii "DeviceDesc", RegValue.binary)])
        { id := ascii "X" }
      = .error Panic.sliceBounds ∧
    Device.listInstances
        (twoInstanceStore [(ascii "DeviceDesc", RegValue.sz (ascii "HID device"))])
        { id := ascii "X" }
      = .error Panic.sliceBounds ∧
    Device.listInstances
        (twoInstanceStore
          [(ascii "DeviceDesc", RegValue.sz (ascii "@keyboard.inf,%b%;Keyboard B"))])
        { id := ascii "X" }
      = .ok [{ id := ascii "A", parent := { id := ascii "X" },
               desc := { driver := ascii "@msmouse.inf", deviceType := ascii "%a%",
                         name := ascii "Mouse A" } },
             { id := ascii "B", parent := { id := ascii "X" },
               desc := { driver := ascii "@keyboard.inf", deviceType := ascii "%b%",
                         name := ascii "Keyboard B" } }] := by
  decide

/-- Claim C10 as stated fails. In the store with the one root device `X`, its
one instance `Y` described by `"@mouhid.inf,%t%;Mouse Y"` and
`FlipFlopWheel = 0`, the descriptor parses to the driver token `"@mouhid.inf"`,
`isMouse` is false on it, and `loadDeviceInstances(listRootDevices())` returns
the empty list. -/
theorem loadConfigurable_mouhid_empty :
    parseDeviceDesc (ascii "@mouhid.inf,%t%;Mouse Y") = .ok mouhidY.desc ∧
    mouhidY.desc.isMouse = false ∧
    loadConfigurable (hidStoreWithParams (ascii "X") (ascii "Y")
        (ascii "@mouhid.inf,%t%;Mouse Y") (paramsNode (RegValue.dword 0))) = .ok [] := by
  decide

theorem joinPath_length (a b : GoString) :
    (joinPath [a, b]).length = a.length + 1 + b.length := by
  simp only [joinPath, Join, List.length_append]
  rfl

theorem ne_joinPath (a b : GoString) : ¬ a = joinPath [a, b] := by
  intro h
  have := congrArg List.length h
  rw [joinPath_length] at this
  omega

theorem joinPath_joinPath (a b c : GoString) :
    joinPath [joinPath [a, b], c] = joinPath [a, b, c] := by
  simp only [joinPath, Join, List.append_assoc]

theorem ne_joinPath_three (a b c : GoString) : ¬ a = joinPath [a, b, c] := by
  rw [← joinPath_joinPath]
  intro h
  have := congrArg List.length h
  rw [joinPath_length, joinPath_length] at this
  omega

theorem ne_joinPath_prefix (a b c : GoString) : ¬ joinPath [a, b] = joinPath [a, b, c] := by
  rw [← joinPath_joinPath]
  exact ne_joinPath _ _

theorem listRootDevices_hidStore (x y desc : GoString) (params : RegKey) :
    listRootDevices (hidStoreWithParams x y desc params) = .ok [{ id := x }] := by
  simp [listRootDevices, hidStoreWithParams, hidBranch, OpenKey, lookup, okKey, panicOnError,
    listSubKeysNames, Key.Stat, Key.ReadSubKeyNames]

theorem listInstances_hidStore (x y desc : GoString) (params : RegKey) (parsed : deviceDesc)
    (hparse : parseDeviceDesc desc = .ok parsed) :
    Device.listInstances (hidStoreWithParams x y desc params) { id := x }
      = .ok [{ id := y, parent := { id := x }, desc := parsed }] := by
  have h1 : ¬ rootHidPath = joinPath [rootHidPath, x] := ne_joinPath _ _
  have h2 : ¬ rootHidPath = joinPath [rootHidPath, x, y] := ne_joinPath_three _ _ _
  have h3 : ¬ joinPath [rootHidPath, x] = joinPath [rootHidPath, x, y] :=
    ne_joinPath_prefix _ _ _
  simp [Device.listInstances, hidStoreWithParams, hidBranch, OpenKey, lookup, okKey,
    panicOnError, listSubKeysNames, Key.Stat, Key.ReadSubKeyNames, listInstancesLoop,
    joinPath_joinPath, h1, h2, h3, Key.GetStringValue, hparse]

/-- Claim C10, amended. For the store with a single root device `X` holding a
single instance `Y` whose `DeviceDesc` is `"@msmouse.inf,%t%;Mouse Y"` and whose
`Device Parameters` node has `FlipFlopWheel = 0`, whatever the key names of `X`
and `Y`, `loadDeviceInstances(listRootDevices())` returns exactly the
one-element list of `Y`; the driver token that `isMouse` accepts is
`"@msmouse.inf"`. -/
theorem loadConfigurable_msmouse (x y : GoString) :
    loadConfigurable (hidStoreWithParams x y (ascii "@msmouse.inf,%t%;Mouse Y")
        (paramsNode (RegValue.dword 0)))
      = .ok [{ id := y, parent := { id := x },
               desc := { driver := ascii "@msmouse.inf", deviceType := ascii "%t%",
                         name := ascii "Mouse Y" } }] := by
  have hparse : parseDeviceDesc (ascii "@msmouse.inf,%t%;Mouse Y")
      = .ok { driver := ascii "@msmouse.inf", deviceType := ascii "%t%",
              name := ascii "Mouse Y" } := by decide
  have hm : (⟨ascii "@msmouse.inf", ascii "%t%", ascii "Mouse Y"⟩ : deviceDesc).isMouse
      = true := by decide
  have hroot := listRootDevices_hidStore x y (ascii "@msmouse.inf,%t%;Mouse Y")
    (paramsNode (RegValue.dword 0))
  have hinst := listInstances_hidStore x y (ascii "@msmouse.inf,%t%;Mouse Y")
    (paramsNode (RegValue.dword 0)) _ hparse
  simp only [loadConfigurable, hroot, loadDeviceInstances, loadDeviceInstancesLoop, hinst,
    appendMice, hm, if_true, List.nil_append]

end WheelDirectionFlipper
